import Mathlib

/-!
Shallow embedding of the ANTIGRAVITYCOMMANDER coordinator control plane:
the task router (src/backend/task_router.py), the master coordinator's task
lifecycle (src/master_coordinator.py) and the shared-context synchronizer
(src/sync_manager.py).

Python dicts are modelled as insertion-ordered association lists (Python 3.7+
dicts preserve insertion order, which the router's stable sort depends on);
floats are modelled as rationals; each call of `datetime.now()` is modelled by
an explicit rational `now` parameter.  Raised exceptions are modelled as
explicit outcome values, with the state they leave behind.
-/

/-- Lookup in an insertion-ordered association list (Python `d[k]` / `k in d`). -/
def alookup {α : Type} (k : String) : List (String × α) → Option α
  | [] => none
  | (k', v) :: rest => if k' = k then some v else alookup k rest

/-- Python `d[k] = v`: replace in place when the key exists (insertion position
kept), else append. -/
def ainsert {α : Type} (k : String) (v : α) : List (String × α) → List (String × α)
  | [] => [(k, v)]
  | (k', v') :: rest => if k' = k then (k, v) :: rest else (k', v') :: ainsert k v rest

/-- Python `del d[k]`. -/
def aerase {α : Type} (k : String) : List (String × α) → List (String × α)
  | [] => []
  | (k', v') :: rest => if k' = k then rest else (k', v') :: aerase k rest

/-- In-place mutation of the value stored at `k` (Python `d[k].f = ...`). -/
def aupdate {α : Type} (k : String) (f : α → α) : List (String × α) → List (String × α)
  | [] => []
  | (k', v) :: rest => if k' = k then (k', f v) :: rest else (k', v) :: aupdate k f rest

/-- Number of entries stored under key `k`. -/
def countKey {α : Type} (k : String) (l : List (String × α)) : Nat :=
  (l.filter (fun p => p.1 = k)).length

/-- Per-task-type statistics, one value of `agent['specializations']`. -/
structure SpecStats where
  total : Nat
  successful : Nat
  avg_duration : ℚ
  success_rate : ℚ
deriving Repr, DecidableEq

/-- One inventory record of `IntelligentTaskRouter.agents`.
`performance_profile` is stored by `register_agent` but never read again, so it
is omitted from the record. -/
structure AgentRec where
  id : String
  capabilities : List String
  status : String
  current_load : Nat
  total_tasks : Nat
  successful_tasks : Nat
  failed_tasks : Nat
  avg_duration : ℚ
  specializations : List (String × SpecStats)
  last_task_time : Option ℚ
deriving Repr, DecidableEq

/-- A task as the router and coordinator read it (`task['id']`, `task['type']`,
`task.get('priority')`, `task.get('description', ...)`, `task['delegated_from']`).
Fields absent from the underlying dict are `none`. -/
structure TaskRec where
  id : Option String := none
  type : Option String := none
  priority : Option String := none
  description : Option String := none
  delegated_from : Option String := none
deriving Repr, DecidableEq

/-- One record of `IntelligentTaskRouter.task_history`. -/
structure HistEntry where
  agent_id : String
  task : TaskRec
  success : Bool
  duration : ℚ
  timestamp : ℚ
deriving Repr, DecidableEq

/-- One audit record appended by `_log_routing_decision`. -/
structure RoutingDecision where
  timestamp : ℚ
  task : TaskRec
  selected_agent : String
  candidate_scores : List (String × ℚ)
deriving Repr, DecidableEq

/-- The mutable state of `IntelligentTaskRouter`. -/
structure RouterState where
  agents : List (String × AgentRec)
  task_history : List HistEntry
  routing_stats : List (String × List RoutingDecision)
deriving Repr, DecidableEq

def emptyRouter : RouterState := ⟨[], [], []⟩

/-- The fresh inventory record built by `register_agent`. -/
def freshAgentRec (agent_id : String) (capabilities : List String) : AgentRec :=
  { id := agent_id, capabilities := capabilities, status := "idle",
    current_load := 0, total_tasks := 0, successful_tasks := 0, failed_tasks := 0,
    avg_duration := 0, specializations := [], last_task_time := none }

/-- Model of `IntelligentTaskRouter.register_agent`: unconditionally stores a fresh
record under `agent_id`. -/
def registerAgent (agent_id : String) (capabilities : List String)
    (st : RouterState) : RouterState :=
  { st with agents := ainsert agent_id (freshAgentRec agent_id capabilities) st.agents }

/-- The per-agent test inside `_find_eligible_agents`: idle or low load, and
declaring the required capability or `general`. -/
def agentEligible (required : String) (a : AgentRec) : Bool :=
  (a.status == "idle" || decide (a.current_load < 3)) &&
    (a.capabilities.contains required || a.capabilities.contains "general")

/-- Model of `_find_eligible_agents`: agents are scanned in dict (registration) order. -/
def findEligibleAgents (task : TaskRec) (st : RouterState) : List String :=
  let required := task.type.getD "general"
  (st.agents.filter (fun p => agentEligible required p.2)).map Prod.fst

/-- Model of `str.lower().split()`: lowercase, split on whitespace runs, drop empties. -/
def keywords (s : String) : List String :=
  (s.toLower.split Char.isWhitespace).filter (fun w => w ≠ "")

/-- Size of `set a & set b` for the keyword lists. -/
def overlapCount (a b : List String) : Nat :=
  (a.dedup.filter (fun w => b.contains w)).length

/-- Model of `_has_similar_context`.  `(now - t).seconds` is modelled as the floor of the
rational difference (history timestamps never lie more than a day behind `now`
in any run considered here). -/
def hasSimilarContext (now : ℚ) (st : RouterState) (agent_id : String)
    (task : TaskRec) : Bool :=
  if st.task_history = [] then false
  else
    let recent := st.task_history.filter (fun t =>
      t.agent_id == agent_id && decide ((⌊now - t.timestamp⌋ : ℤ) < 600))
    let tks := keywords (task.description.getD "")
    recent.any (fun r =>
      decide (3 < overlapCount tks (keywords (r.task.description.getD ""))))

/-- Model of `_calculate_agent_score`.  Only ever called on registered agents
(`route_task` scores members of `self.agents`); the `none` branch is
unreachable there and returns 0. -/
def calculateAgentScore (now : ℚ) (st : RouterState) (agent_id : String)
    (task : TaskRec) : ℚ :=
  match alookup agent_id st.agents with
  | none => 0
  | some agent =>
    let task_type := task.type.getD "general"
    let score : ℚ := 100
    let score := match alookup task_type agent.specializations with
      | some sp => score + sp.success_rate * 40
      | none => if agent.capabilities.contains task_type then score + 20 else score
    let score := score - (agent.current_load : ℚ) * 15
    let score := if agent.total_tasks > 0 then
        score + ((agent.successful_tasks : ℚ) / (agent.total_tasks : ℚ)) * 20
      else score
    let score := if decide (0 < agent.avg_duration) && task.priority == some "high" then
        score + (1 / (agent.avg_duration + 1)) * 10
      else score
    let score := if hasSimilarContext now st agent_id task then score + 15 else score
    let score := match agent.last_task_time with
      | some t => if (300 : ℤ) < ⌊now - t⌋ then score + 10 else score
      | none => score
    max 0 score

/-- The comparison used by `scored_agents.sort(key=lambda x: x[1], reverse=True)`:
a stable sort into descending score order keeps equal-scored entries in their
original (registration) order, which is exactly `List.insertionSort` with this
reflexive relation. -/
def scoreGE (x y : String × ℚ) : Prop := y.2 ≤ x.2

instance : DecidableRel scoreGE := fun x y => inferInstanceAs (Decidable (y.2 ≤ x.2))

def sortDesc (l : List (String × ℚ)) : List (String × ℚ) :=
  List.insertionSort scoreGE l

/-- Outcome of `route_task`: success, the `NoEligibleAgent` exception
(`raise Exception("No hay agentes disponibles para: ...")`), or the `KeyError`
raised by `task['type']` on a task with no `type` key (in the raise's f-string
when no agent is eligible, or in `_log_routing_decision` after the winning
agent has already been mutated). -/
inductive RouteRes where
  | ok (agent : String)
  | errNoEligible
  | errKeyError
deriving Repr, DecidableEq

/-- Model of `_log_routing_decision`: appends the decision under `routing_stats[type]`. -/
def logRoutingDecision (now : ℚ) (task : TaskRec) (ty : String) (selected : String)
    (allScores : List (String × ℚ)) (st : RouterState) : RouterState :=
  let d : RoutingDecision := ⟨now, task, selected, allScores⟩
  { st with routing_stats :=
      match alookup ty st.routing_stats with
      | none => ainsert ty [d] st.routing_stats
      | some ds => ainsert ty (ds ++ [d]) st.routing_stats }

/-- The scored candidate list built inside `route_task`, in eligibility
(registration) order. -/
def routeScored (now : ℚ) (task : TaskRec) (st : RouterState) : List (String × ℚ) :=
  (findEligibleAgents task st).map (fun aid => (aid, calculateAgentScore now st aid task))

/-- Model of `scored_agents[0][0]` after the in-place stable descending sort. -/
def routeBest (now : ℚ) (task : TaskRec) (st : RouterState) : String :=
  ((sortDesc (routeScored now task st)).headD ("", 0)).1

/-- The in-place mutation `route_task` applies to the winning agent. -/
def bumpAgent (r : AgentRec) : AgentRec :=
  { r with status := "busy", current_load := r.current_load + 1 }

/-- Model of `route_task`.  Returns the outcome together with the router state the call
leaves behind (exceptions propagate to the caller but in-place mutations
survive them): the `KeyError` inside `_log_routing_decision` fires after the
winning agent was already marked busy. -/
def routeTask (now : ℚ) (task : TaskRec) (st : RouterState) : RouteRes × RouterState :=
  let eligible := findEligibleAgents task st
  if eligible = [] then
    match task.type with
    | none => (.errKeyError, st)
    | some _ => (.errNoEligible, st)
  else
    let best := routeBest now task st
    let st1 := { st with agents := aupdate best bumpAgent st.agents }
    match task.type with
    | none => (.errKeyError, st1)
    | some ty =>
      (.ok best, logRoutingDecision now task ty best (sortDesc (routeScored now task st)) st1)

/-- The in-place update `report_task_completion` performs on the found agent
record: counters, rolling average (weights `0.8`/`0.2` as the rationals
`8/10`/`2/10`), per-type specialization, and the conditional reset to `idle`.
`max(0, load - 1)` is truncated `Nat` subtraction. -/
def applyCompletion (now : ℚ) (task : TaskRec) (success : Bool) (duration : ℚ)
    (agent : AgentRec) : AgentRec :=
  let agent := { agent with
    total_tasks := agent.total_tasks + 1,
    current_load := agent.current_load - 1,
    last_task_time := some now }
  let agent := if success
    then { agent with successful_tasks := agent.successful_tasks + 1 }
    else { agent with failed_tasks := agent.failed_tasks + 1 }
  let agent := if agent.avg_duration = 0
    then { agent with avg_duration := duration }
    else { agent with avg_duration := agent.avg_duration * (8/10) + duration * (2/10) }
  let task_type := task.type.getD "general"
  let spec0 := (alookup task_type agent.specializations).getD ⟨0, 0, 0, 0⟩
  let spec1 := { spec0 with
    total := spec0.total + 1,
    successful := spec0.successful + (if success then 1 else 0) }
  let spec2 := { spec1 with
    success_rate := (spec1.successful : ℚ) / (spec1.total : ℚ),
    avg_duration := spec1.avg_duration * (8/10) + duration * (2/10) }
  let agent := { agent with specializations := ainsert task_type spec2 agent.specializations }
  if agent.current_load = 0 then { agent with status := "idle" } else agent

/-- Model of `report_task_completion`: a no-op on unknown agents, otherwise updates the
agent record via `applyCompletion` and appends to `task_history`. -/
def reportTaskCompletion (now : ℚ) (agent_id : String) (task : TaskRec)
    (success : Bool) (duration : ℚ) (st : RouterState) : RouterState :=
  match alookup agent_id st.agents with
  | none => st
  | some _ =>
    { st with
      agents := aupdate agent_id (applyCompletion now task success duration) st.agents,
      task_history := st.task_history ++ [⟨agent_id, task, success, duration, now⟩] }

/-- One entry of `MasterCoordinator.agents`: the `{**agent_data, 'websocket',
'status', 'registered_at'}` dict.  The websocket object itself is opaque;
sends over it are recorded in the ghost `sent` log of `CoordState`. -/
structure CoordAgent where
  agent_id : String
  capabilities : List String
  status : String
  registered_at : ℚ
deriving Repr, DecidableEq

/-- One entry of `MasterCoordinator.active_tasks`. -/
structure ActiveInfo where
  task : TaskRec
  agent : String
  started_at : ℚ
deriving Repr, DecidableEq

/-- One record of `MasterCoordinator.completed_tasks`:
`{**active_info, 'completed_at', 'duration', 'result'}`. -/
structure CompletedRec where
  task : TaskRec
  agent : String
  started_at : ℚ
  completed_at : ℚ
  duration : ℚ
  result : Option String
deriving Repr, DecidableEq

/-- A frame the coordinator pushed over some agent's websocket (ghost record of
`websocket.send`; sends are modelled as succeeding, and broadcast send
failures are swallowed by the source anyway). -/
structure SentMsg where
  target : String
  tag : String
  task_id : Option String
deriving Repr, DecidableEq

/-- The mutable state of `MasterCoordinator` (the telemetry and sync-manager
collaborators are modelled separately; neither is read by the lifecycle
operations below). -/
structure CoordState where
  agents : List (String × CoordAgent)
  task_queue : List TaskRec
  active_tasks : List (String × ActiveInfo)
  completed_tasks : List CompletedRec
  router : RouterState
  sent : List SentMsg
deriving Repr, DecidableEq

def initCoord : CoordState := ⟨[], [], [], [], emptyRouter, []⟩

/-- Model of `broadcast_system_status`: best-effort `SYSTEM_STATUS_UPDATE` to every
agent; no coordinator state other than the ghost send log changes. -/
def broadcastSystemStatus (st : CoordState) : CoordState :=
  { st with sent := st.sent ++ st.agents.map (fun p => ⟨p.1, "SYSTEM_STATUS_UPDATE", none⟩) }

/-- Model of `MasterCoordinator.register_agent`: stores the coordinator-side record,
registers the agent with the router, and broadcasts. -/
def registerAgentC (now : ℚ) (agent_id : String) (capabilities : List String)
    (st : CoordState) : CoordState :=
  let st := { st with
    agents := ainsert agent_id ⟨agent_id, capabilities, "idle", now⟩ st.agents,
    router := registerAgent agent_id capabilities st.router }
  broadcastSystemStatus st

/-- Model of `_can_handle_task`.  `none` models the `KeyError` raised by `task['type']`
when the `'general'` short-circuit does not fire and the task has no `type`
key; `some false` covers the unknown-agent early return. -/
def canHandleTask (agent_id : String) (task : TaskRec) (st : CoordState) : Option Bool :=
  match alookup agent_id st.agents with
  | none => some false
  | some agent =>
    if agent.capabilities.contains "general" then some true
    else match task.type with
      | none => none
      | some ty => some (agent.capabilities.contains ty)

/-- Model of `assign_task_to_agent`.  A `none` result of the inner selection models an
exception raised before a target was chosen (the `KeyError` in
`_can_handle_task`); the outer `except` handler re-enqueues the task at the
tail while keeping every mutation made before the raise, including the ghost
record of an already-performed send. -/
def assignTaskToAgent (now : ℚ) (requesting : Option String) (st : CoordState) : CoordState :=
  match st.task_queue with
  | [] => st
  | task :: rest =>
    let st := { st with task_queue := rest }
    let chooseRoute : Option String × RouterState :=
      match routeTask now task st.router with
      | (.ok a, rt) => (some a, rt)
      | (_, rt) => (requesting, rt)
    let step : Option (Option String × RouterState) :=
      match requesting with
      | some r =>
        match canHandleTask r task st with
        | none => none
        | some true => some (some r, st.router)
        | some false => some chooseRoute
      | none => some chooseRoute
    match step with
    | none => { st with task_queue := rest ++ [task] }
    | some (best?, rt) =>
      let st := { st with router := rt }
      match best? with
      | none => { st with task_queue := rest ++ [task] }
      | some best =>
        if best = "" ∨ alookup best st.agents = none then
          { st with task_queue := rest ++ [task] }
        else
          let st := { st with sent := st.sent ++ [(⟨best, "TASK_ASSIGNMENT", task.id⟩ : SentMsg)] }
          match task.id with
          | none => { st with task_queue := rest ++ [task] }
          | some tid =>
            { st with active_tasks := ainsert tid ⟨task, best, now⟩ st.active_tasks }

/-- Model of `handle_task_completion`: only acts when the reported `task.id` is in the
active map; reports to the router (a `None`/unknown agent id makes that a
no-op), archives the task, frees the agent and broadcasts. -/
def handleTaskCompletion (now : ℚ) (agentId? : Option String) (taskId? : Option String)
    (result? : Option String) (st : CoordState) : CoordState :=
  match taskId? with
  | none => st
  | some tid =>
    match alookup tid st.active_tasks with
    | none => st
    | some info =>
      let duration := now - info.started_at
      let router := match agentId? with
        | some a => reportTaskCompletion now a info.task true duration st.router
        | none => st.router
      let st := { st with
        router := router,
        completed_tasks := st.completed_tasks ++
          [⟨info.task, info.agent, info.started_at, now, duration, result?⟩],
        active_tasks := aerase tid st.active_tasks }
      let st := match agentId? with
        | some a =>
          if (alookup a st.agents).isSome then
            { st with agents := aupdate a (fun ag => { ag with status := "idle" }) st.agents }
          else st
        | none => st
      broadcastSystemStatus st

/-- Models Python `str(task)`, the default used for a delegated task's
description; its exact text is irrelevant to every operation modelled here. -/
def taskStr (t : TaskRec) : String := reprStr t

/-- Model of `handle_delegation`: mints a new task whose id counts only completed and
active tasks (`task_<n>_del`), enqueues it at the tail, and dispatches to the
target agent immediately when that agent is registered and idle. -/
def handleDelegation (now : ℚ) (fromAgent toAgent : Option String) (task : TaskRec)
    (st : CoordState) : CoordState :=
  let new_task : TaskRec := {
    id := some ("task_" ++ toString (st.completed_tasks.length + st.active_tasks.length) ++ "_del"),
    type := some (task.type.getD "general"),
    description := some (task.description.getD (taskStr task)),
    priority := some "normal",
    delegated_from := fromAgent }
  let st := { st with task_queue := st.task_queue ++ [new_task] }
  match toAgent with
  | some t =>
    if (alookup t st.agents).map CoordAgent.status = some "idle" then
      assignTaskToAgent now (some t) st
    else st
  | none => st

/-- The `ConnectionClosed` handler in `handle_connection`: mark the agent
disconnected (the router inventory is left untouched) and broadcast. -/
def handleDisconnect (agent_id : String) (st : CoordState) : CoordState :=
  if (alookup agent_id st.agents).isSome then
    broadcastSystemStatus
      { st with agents := aupdate agent_id (fun a => { a with status := "disconnected" }) st.agents }
  else st

/-- A JSON-like dynamic value, the `Any` stored into the shared context. -/
inductive Val where
  | vNull
  | vBool (b : Bool)
  | vNum (n : Int)
  | vStr (s : String)
  | vArr (xs : List Val)
  | vObj (fields : List (String × Val))
deriving Repr, BEq

/-- Key order used by `json.dumps(..., sort_keys=True)`. -/
def keyLE (a b : String × String) : Prop := a.1 ≤ b.1

instance : DecidableRel keyLE := fun a b => inferInstanceAs (Decidable (a.1 ≤ b.1))

/-- Model of `json.dumps(value, sort_keys=True, default=str)` with the default
separators `", "` and `": "`.  String escaping is plain quoting (no value
serialized by the claims below needs escapes); object fields are serialized
and then ordered by key. -/
def jsonDumps : Val → String
  | .vNull => "null"
  | .vBool b => cond b "true" "false"
  | .vNum n => toString n
  | .vStr s => "\"" ++ s ++ "\""
  | .vArr xs => "[" ++ String.intercalate ", " (xs.attach.map (fun x => jsonDumps x.1)) ++ "]"
  | .vObj fs =>
      let items := fs.attach.map (fun f => (f.1.1, jsonDumps f.1.2))
      "\x7b" ++ String.intercalate ", "
        ((List.insertionSort keyLE items).map (fun p => "\"" ++ p.1 ++ "\": " ++ p.2)) ++ "\x7d"
termination_by v => sizeOf v
decreasing_by
  · have h := List.sizeOf_lt_of_mem x.2
    simp only [Val.vArr.sizeOf_spec]
    omega
  · have h := List.sizeOf_lt_of_mem f.2
    rcases f with ⟨⟨k, v⟩, hf⟩
    simp only [Prod.mk.sizeOf_spec, Val.vObj.sizeOf_spec] at h ⊢
    omega

/-- One entry of `SyncManager.shared_context`.  `checksum` is `none` when the
dict carries no `checksum` key (`context.get('checksum')` is then `None`);
entries written by `update_context` always carry `some`. -/
structure CtxEntry where
  value : Val
  updated_by : String
  timestamp : ℚ
  version : Nat
  metadata : List (String × String)
  checksum : Option String
deriving Repr

/-- One record of `SyncManager.context_history`. -/
structure CtxHistRec where
  key : String
  value : Val
  agent : String
  timestamp : ℚ
deriving Repr

/-- One message queued by `_notify_subscribers`. -/
structure SyncMsg where
  target_agent : String
  context_key : String
  entry : CtxEntry
  updated_by : String
deriving Repr

/-- The mutable state of `SyncManager` (the lazily created `asyncio.Queue` is
the `sync_queue` list). -/
structure SyncState where
  shared_context : List (String × CtxEntry)
  context_history : List CtxHistRec
  subscriptions : List (String × List String)
  sync_queue : List SyncMsg
deriving Repr

def emptySync : SyncState := ⟨[], [], [], []⟩

/-- Model of `_calculate_checksum`: SHA-256 hex digest of the canonical serialization.
The digest itself is an opaque deterministic function of its input string;
every theorem below holds for an arbitrary such function, SHA-256 included. -/
def calculateChecksum (sha256hex : String → String) (v : Val) : String :=
  sha256hex (jsonDumps v)

/-- Model of `_verify_checksum`: vacuously true when the stored checksum is missing or
falsy (the empty string), otherwise compares against the recomputed digest. -/
def verifyChecksum (sha256hex : String → String) (c : CtxEntry) : Bool :=
  match c.checksum with
  | none => true
  | some expected =>
    if expected = "" then true
    else calculateChecksum sha256hex c.value == expected

/-- Model of `_has_conflict`: timestamps closer than one second and different values. -/
def hasConflict (existing : CtxEntry) (newValue : Val) (ts : ℚ) : Bool :=
  decide (ts - existing.timestamp < 1) && !(existing.value == newValue)

/-- Model of `_resolve_conflict` (`last_write_wins`): keep the incoming value. -/
def resolveConflict (_existing : CtxEntry) (newValue : Val) (_agent_id : String)
    (_ts : ℚ) : Val :=
  newValue

/-- Model of `_get_next_version`: previous version plus one, or 1 for a fresh key. -/
def getNextVersion (key : String) (st : SyncState) : Nat :=
  match alookup key st.shared_context with
  | some e => e.version + 1
  | none => 1

/-- Model of `_notify_subscribers`: queue a message for every subscriber of the key
other than the updater, carrying the just-stored entry. -/
def notifySubscribers (key updater : String) (st : SyncState) : SyncState :=
  { st with sync_queue := st.sync_queue ++ st.subscriptions.filterMap (fun p =>
      if p.2.contains key && p.1 != updater then
        (alookup key st.shared_context).map (fun e => ⟨p.1, key, e, updater⟩)
      else none) }

/-- Model of `update_context`: conflict-resolve the value, store the new entry (version
bumped from the still-present old entry, checksum over the stored value),
append to the history, notify subscribers; returns the stored entry alongside
the new state. -/
def updateContext (now : ℚ) (sha256hex : String → String) (agent_id key : String)
    (value0 : Val) (metadata : List (String × String)) (st : SyncState) :
    SyncState × CtxEntry :=
  let value := match alookup key st.shared_context with
    | some existing =>
      if hasConflict existing value0 now then resolveConflict existing value0 agent_id now
      else value0
    | none => value0
  let entry : CtxEntry := {
    value := value,
    updated_by := agent_id,
    timestamp := now,
    version := getNextVersion key st,
    metadata := metadata,
    checksum := some (calculateChecksum sha256hex value) }
  let st := { st with
    shared_context := ainsert key entry st.shared_context,
    context_history := st.context_history ++ [⟨key, value, agent_id, now⟩] }
  (notifySubscribers key agent_id st, entry)

/-- Model of `subscribe`: extend (or create) the agent's subscription key set. -/
def subscribeKeys (agent_id : String) (keys : List String) (st : SyncState) : SyncState :=
  match alookup agent_id st.subscriptions with
  | none => { st with subscriptions := ainsert agent_id keys st.subscriptions }
  | some ks => { st with subscriptions := ainsert agent_id (ks ++ keys.filter (fun k => !ks.contains k)) st.subscriptions }

/-- Model of `get_context`: absent key or failed checksum verification yields `none`. -/
def getContext (sha256hex : String → String) (key : String) (st : SyncState) :
    Option CtxEntry :=
  match alookup key st.shared_context with
  | none => none
  | some c => if verifyChecksum sha256hex c then some c else none

/-- A plain `general` task used by the concrete scenarios below. -/
def generalTask : TaskRec := { type := some "general" }

/-- Scenario state for registration idempotence: register `a`, complete one
task (so its counters are non-zero), register `a` again. -/
def regTwiceMid : RouterState :=
  reportTaskCompletion 10 "a" generalTask true 5 (registerAgent "a" ["general"] emptyRouter)

def regTwiceEnd : RouterState := registerAgent "a" ["general"] regTwiceMid

/-- Scenario state for tie-breaking: two identical fresh idle agents, `b`
registered before `a`. -/
def tieRouter : RouterState :=
  registerAgent "a" ["general"] (registerAgent "b" ["general"] emptyRouter)

/-- Scenario state for eligibility: agent `a` registers and then its stream
closes, so the coordinator marks it `disconnected`; the router inventory still
lists it as idle. -/
def discState : CoordState :=
  handleDisconnect "a" (registerAgentC 0 "a" ["general"] initCoord)

/-- Scenario for the requeue claim: agent `a` declares only `x`; a task of
type `y` sits in the queue; `a` sends `TASK_REQUEST`. -/
def reqTask : TaskRec := { id := some "t1", type := some "y" }

def reqState : CoordState :=
  { registerAgentC 0 "a" ["x"] initCoord with task_queue := [reqTask] }

def reqStateAfter : CoordState := assignTaskToAgent 1 (some "a") reqState

/-- Delegation trace for the unique-assignment invariant: two delegation
frames arrive on an empty coordinator (their `to` target is absent), then an
agent registers and requests work.  Both minted ids are `task_0_del` because
`handle_delegation` counts only completed and active tasks. -/
def delTask : TaskRec := { type := some "general", description := some "diagnostic sweep" }

def delState1 : CoordState := handleDelegation 0 (some "x") none delTask initCoord

def delState2 : CoordState := handleDelegation 1 (some "y") none delTask delState1

def delState3 : CoordState := registerAgentC 2 "a" ["general"] delState2

def delState4 : CoordState := assignTaskToAgent 3 (some "a") delState3



/-- A stored entry whose checksum field is the falsy empty string and whose
value no hash could match it against; used to exercise the vacuous branch of
`_verify_checksum`. -/
def falsyEntry : CtxEntry :=
  { value := Val.vStr "x", updated_by := "m", timestamp := 0, version := 1,
    metadata := [], checksum := some "" }

def falsySync : SyncState :=
  { shared_context := [("k", falsyEntry)], context_history := [],
    subscriptions := [], sync_queue := [] }

lemma alookup_ainsert_self {α : Type} (k : String) (v : α) (l : List (String × α)) :
    alookup k (ainsert k v l) = some v := by
  induction l with
  | nil => simp [ainsert, alookup]
  | cons p rest ih =>
    obtain ⟨k', v'⟩ := p
    by_cases h : k' = k
    · simp [ainsert, alookup, h]
    · simp [ainsert, alookup, h, ih]

lemma alookup_ainsert_ne {α : Type} (j k : String) (v : α) (l : List (String × α))
    (h : j ≠ k) : alookup j (ainsert k v l) = alookup j l := by
  induction l with
  | nil => simp [ainsert, alookup, Ne.symm h]
  | cons p rest ih =>
    obtain ⟨k', v'⟩ := p
    by_cases hk : k' = k
    · subst hk
      simp [ainsert, alookup, Ne.symm h]
    · simp [ainsert, alookup, hk, ih]

lemma alookup_aupdate_self {α : Type} (k : String) (f : α → α) (l : List (String × α)) :
    alookup k (aupdate k f l) = (alookup k l).map f := by
  induction l with
  | nil => simp [aupdate, alookup]
  | cons p rest ih =>
    obtain ⟨k', v'⟩ := p
    by_cases h : k' = k
    · simp [aupdate, alookup, h]
    · simp [aupdate, alookup, h, ih]

lemma alookup_aupdate_ne {α : Type} (j k : String) (f : α → α) (l : List (String × α))
    (h : j ≠ k) : alookup j (aupdate k f l) = alookup j l := by
  induction l with
  | nil => simp [aupdate]
  | cons p rest ih =>
    obtain ⟨k', v'⟩ := p
    by_cases hk : k' = k
    · subst hk
      simp [aupdate, alookup, Ne.symm h, ih]
    · simp [aupdate, alookup, hk, ih]

lemma countKey_eq_zero_of_not_mem {α : Type} (k : String) (l : List (String × α))
    (h : k ∉ l.map Prod.fst) : countKey k l = 0 := by
  induction l with
  | nil => simp [countKey]
  | cons p rest ih =>
    obtain ⟨k', v'⟩ := p
    simp only [List.map_cons, List.mem_cons] at h
    push_neg at h
    have hne : ¬(k' = k) := fun he => h.1 he.symm
    simpa [countKey, List.filter_cons, hne] using ih h.2

lemma countKey_ainsert_of_nodup {α : Type} (k : String) (v : α) (l : List (String × α))
    (h : (l.map Prod.fst).Nodup) : countKey k (ainsert k v l) = 1 := by
  induction l with
  | nil => simp [ainsert, countKey]
  | cons p rest ih =>
    obtain ⟨k', v'⟩ := p
    simp only [List.map_cons, List.nodup_cons] at h
    by_cases hk : k' = k
    · subst hk
      have h0 : countKey k' rest = 0 := countKey_eq_zero_of_not_mem k' rest h.1
      simpa [ainsert, countKey, List.filter_cons] using h0
    · simpa [ainsert, countKey, List.filter_cons, hk] using ih h.2

lemma alookup_eq_some_of_mem_nodup {α : Type} {k : String} {v : α} {l : List (String × α)}
    (hm : (k, v) ∈ l) (h : (l.map Prod.fst).Nodup) : alookup k l = some v := by
  induction l with
  | nil => simp at hm
  | cons p rest ih =>
    obtain ⟨k', v'⟩ := p
    simp only [List.map_cons, List.nodup_cons] at h
    rcases List.mem_cons.mp hm with he | hm'
    · injection he with h1 h2
      subst h1
      subst h2
      simp [alookup]
    · have hkmem : k ∈ rest.map Prod.fst := List.mem_map.mpr ⟨(k, v), hm', rfl⟩
      have hne : k' ≠ k := fun he => h.1 (by rw [he]; exact hkmem)
      simp [alookup, hne, ih hm' h.2]

lemma headD_mem {α : Type} (d : α) (l : List α) (h : l ≠ []) : l.headD d ∈ l := by
  cases l with
  | nil => exact absurd rfl h
  | cons x xs => simp

/-- The head of the stable descending sort of `x :: l` is `x` itself whenever
no element of `l` scores strictly higher. -/
lemma sortDesc_cons_head_of_max (d x : String × ℚ) (l : List (String × ℚ))
    (h : ∀ y ∈ l, y.2 ≤ x.2) : (sortDesc (x :: l)).headD d = x := by
  have hrw : sortDesc (x :: l) = List.orderedInsert scoreGE x (sortDesc l) := rfl
  cases hs : sortDesc l with
  | nil => rw [hrw, hs]; simp [List.orderedInsert]
  | cons b s =>
    have hb : b ∈ l := by
      have hmem : b ∈ sortDesc l := by rw [hs]; exact List.mem_cons_self b s
      exact (List.perm_insertionSort scoreGE l).subset hmem
    have hxb : scoreGE x b := h b hb
    rw [hrw, hs]
    simp [List.orderedInsert, if_pos hxb]

lemma routeBest_of_max (now : ℚ) (task : TaskRec) (st : RouterState) (a : String)
    (rest : List String) (he : findEligibleAgents task st = a :: rest)
    (h : ∀ b ∈ rest, calculateAgentScore now st b task ≤ calculateAgentScore now st a task) :
    routeBest now task st = a := by
  unfold routeBest routeScored
  rw [he, List.map_cons, sortDesc_cons_head_of_max]
  intro y hy
  obtain ⟨b, hb, rfl⟩ := List.mem_map.mp hy
  exact h b hb

lemma routeBest_mem (now : ℚ) (task : TaskRec) (st : RouterState)
    (h : findEligibleAgents task st ≠ []) :
    routeBest now task st ∈ findEligibleAgents task st := by
  unfold routeBest
  have h1 : routeScored now task st ≠ [] := by
    unfold routeScored
    simpa using h
  have h2 : sortDesc (routeScored now task st) ≠ [] := by
    intro hnil
    have hlen := (List.perm_insertionSort scoreGE (routeScored now task st)).length_eq
    rw [show List.insertionSort scoreGE (routeScored now task st) = sortDesc (routeScored now task st) from rfl, hnil] at hlen
    exact h1 (List.length_eq_zero.mp hlen.symm)
  have h3 := headD_mem ("", (0 : ℚ)) _ h2
  have h4 : (sortDesc (routeScored now task st)).headD ("", 0) ∈ routeScored now task st :=
    (List.perm_insertionSort scoreGE _).subset h3
  obtain ⟨b, hb, hval⟩ := List.mem_map.mp h4
  rw [← hval]
  exact hb

lemma routeTask_of_elig_nil (now : ℚ) (task : TaskRec) (st : RouterState) (ty : String)
    (h : findEligibleAgents task st = []) (hty : task.type = some ty) :
    routeTask now task st = (RouteRes.errNoEligible, st) := by
  simp [routeTask, h, hty]

lemma routeTask_of_elig_cons (now : ℚ) (task : TaskRec) (st : RouterState) (ty : String)
    (h : findEligibleAgents task st ≠ []) (hty : task.type = some ty) :
    routeTask now task st =
      (RouteRes.ok (routeBest now task st),
       logRoutingDecision now task ty (routeBest now task st)
         (sortDesc (routeScored now task st))
         { st with agents := aupdate (routeBest now task st) bumpAgent st.agents }) := by
  simp [routeTask, h, hty]

/-- Inversion: an `errNoEligible` outcome can only arise from the empty
eligibility list, and then the state is returned untouched. -/
lemma routeTask_errNoEligible_inv (now : ℚ) (task : TaskRec) (st : RouterState)
    (h : (routeTask now task st).1 = RouteRes.errNoEligible) :
    findEligibleAgents task st = [] ∧ routeTask now task st = (RouteRes.errNoEligible, st) := by
  by_cases he : findEligibleAgents task st = []
  · refine ⟨he, ?_⟩
    cases hty : task.type with
    | none => simp [routeTask, he, hty] at h
    | some ty => exact routeTask_of_elig_nil now task st ty he hty
  · exfalso
    cases hty : task.type with
    | none => simp [routeTask, he, hty] at h
    | some ty => simp [routeTask, he, hty] at h

/-- Inversion: a successful route means the eligibility list was non-empty,
the winner is `routeBest`, and the post-state inventory is the bumped one. -/
lemma routeTask_ok_inv (now : ℚ) (task : TaskRec) (st : RouterState) (a : String)
    (st' : RouterState) (h : routeTask now task st = (RouteRes.ok a, st')) :
    findEligibleAgents task st ≠ [] ∧ a = routeBest now task st ∧
      st'.agents = aupdate a bumpAgent st.agents := by
  by_cases he : findEligibleAgents task st = []
  · exfalso
    cases hty : task.type with
    | none => simp [routeTask, he, hty] at h
    | some ty => simp [routeTask, he, hty] at h
  · cases hty : task.type with
    | none => exfalso; simp [routeTask, he, hty] at h
    | some ty =>
      rw [routeTask_of_elig_cons now task st ty he hty] at h
      injection h with h1 h2
      injection h1 with h1a
      refine ⟨he, h1a.symm, ?_⟩
      rw [← h2, h1a]
      rfl

/-- C2 counterexample: after agent `a` completes one task its router counter
`total_tasks` is 1, but registering `a` again resets it to 0, so re-registration
does not preserve counters as the claim states. -/
theorem register_again_resets_counters :
    (alookup "a" regTwiceMid.agents).map AgentRec.total_tasks = some 1 ∧
    (alookup "a" regTwiceEnd.agents).map AgentRec.total_tasks = some 0 ∧
    (alookup "a" regTwiceEnd.agents).map AgentRec.total_tasks ≠ some 1 :=
  ⟨by decide, by decide, by decide⟩

/-- C2 (amended): registering an `agent_id` that is already present leaves
exactly one inventory entry for it, but that entry is the fresh initial record
(status `idle`, all counters and statistics reset), not the previous one. -/
theorem register_again_yields_single_fresh_entry (agent_id : String) (caps : List String)
    (st : RouterState) (h : (st.agents.map Prod.fst).Nodup) :
    alookup agent_id (registerAgent agent_id caps st).agents =
      some (freshAgentRec agent_id caps) ∧
    countKey agent_id (registerAgent agent_id caps st).agents = 1 :=
  ⟨alookup_ainsert_self agent_id (freshAgentRec agent_id caps) st.agents,
   countKey_ainsert_of_nodup agent_id (freshAgentRec agent_id caps) st.agents h⟩

theorem register_again_yields_single_fresh_entry_witness :
    alookup "a" (registerAgent "a" ["general"] regTwiceMid).agents =
      some (freshAgentRec "a" ["general"]) ∧
    countKey "a" (registerAgent "a" ["general"] regTwiceMid).agents = 1 :=
  register_again_yields_single_fresh_entry "a" ["general"] regTwiceMid (by decide)

/-- C3 (amended): ties are broken by dict (registration) order, not by load,
idle time or agent id: whenever the first eligible agent's score is at least
every other candidate's score, `route_task` selects it. -/
theorem route_tie_selects_first_registered (now : ℚ) (task : TaskRec) (st : RouterState)
    (ty a : String) (rest : List String)
    (hty : task.type = some ty)
    (he : findEligibleAgents task st = a :: rest)
    (hmax : ∀ b ∈ rest,
      calculateAgentScore now st b task ≤ calculateAgentScore now st a task) :
    (routeTask now task st).1 = RouteRes.ok a := by
  have hne : findEligibleAgents task st ≠ [] := by
    rw [he]
    exact List.cons_ne_nil a rest
  rw [routeTask_of_elig_cons now task st ty hne hty]
  simp [routeBest_of_max now task st a rest he hmax]

/-- C3 counterexample: two freshly registered identical idle agents, `b`
registered before `a`; their scores tie, and `route_task` selects `b`, not the
lexicographically smaller `a` the claim promises. -/
theorem route_tie_not_lexicographic :
    (routeTask 0 generalTask tieRouter).1 = RouteRes.ok "b" ∧
    (routeTask 0 generalTask tieRouter).1 ≠ RouteRes.ok "a" := by
  have he : findEligibleAgents generalTask tieRouter = "b" :: ["a"] := by decide
  have hmax : ∀ b ∈ ["a"],
      calculateAgentScore 0 tieRouter b generalTask ≤
        calculateAgentScore 0 tieRouter "b" generalTask := by
    intro b hb
    have hb' : b = "a" := by simpa using hb
    subst hb'
    exact le_of_eq rfl
  have hne : findEligibleAgents generalTask tieRouter ≠ [] := by
    rw [he]
    exact List.cons_ne_nil _ _
  have hres : (routeTask 0 generalTask tieRouter).1 = RouteRes.ok "b" := by
    rw [routeTask_of_elig_cons 0 generalTask tieRouter "general" hne rfl]
    simp [routeBest_of_max 0 generalTask tieRouter "b" ["a"] he hmax]
  refine ⟨hres, ?_⟩
  rw [hres]
  decide

theorem route_tie_selects_first_registered_witness :
    (routeTask 0 generalTask tieRouter).1 = RouteRes.ok "b" :=
  route_tie_selects_first_registered 0 generalTask tieRouter "general" "b" ["a"] rfl
    (by decide)
    (by
      intro b hb
      have hb' : b = "a" := by simpa using hb
      subst hb'
      exact le_of_eq rfl)

/-- C4 (amended): for a task that carries a `type`, `route_task` fails with
`NoEligibleAgent` iff no registered agent passes the two checks the source
makes — (b) idle or load below 3, and (c) declaring the task's type or
`general`; connectedness is never consulted.  When some agent passes, the
returned agent is one of the eligible ones. -/
theorem route_fails_iff_no_capable_agent (now : ℚ) (task : TaskRec) (st : RouterState)
    (ty : String) (hty : task.type = some ty) :
    ((routeTask now task st).1 = RouteRes.errNoEligible ↔
      ∀ p ∈ st.agents, agentEligible ty p.2 = false) ∧
    (∀ a, (routeTask now task st).1 = RouteRes.ok a → a ∈ findEligibleAgents task st) := by
  have hre : findEligibleAgents task st =
      (st.agents.filter (fun p => agentEligible ty p.2)).map Prod.fst := by
    simp [findEligibleAgents, hty]
  constructor
  · constructor
    · intro h
      have hnil := (routeTask_errNoEligible_inv now task st h).1
      rw [hre] at hnil
      have hfil : st.agents.filter (fun p => agentEligible ty p.2) = [] :=
        List.map_eq_nil_iff.mp hnil
      intro p hp
      have := List.filter_eq_nil_iff.mp hfil p hp
      simpa using this
    · intro h
      have hfil : st.agents.filter (fun p => agentEligible ty p.2) = [] :=
        List.filter_eq_nil_iff.mpr (fun p hp => by simp [h p hp])
      have hnil : findEligibleAgents task st = [] := by
        rw [hre, hfil]
        rfl
      rw [routeTask_of_elig_nil now task st ty hnil hty]
  · intro a h
    have hfull : routeTask now task st = (RouteRes.ok a, (routeTask now task st).2) :=
      Prod.ext h rfl
    obtain ⟨hne, ha, _⟩ := routeTask_ok_inv now task st a _ hfull
    rw [ha]
    exact routeBest_mem now task st hne

/-- C4 counterexample: agent `a` registered and then disconnected; the
coordinator marks every registered agent `disconnected` (so none is
connected), yet `route_task` still succeeds and returns `a`, where the claim
demands a `NoEligibleAgent` failure. -/
theorem route_ignores_disconnection :
    discState.agents.all (fun p => p.2.status == "disconnected") = true ∧
    (routeTask 1 generalTask discState.router).1 = RouteRes.ok "a" :=
  ⟨by decide, by decide⟩

theorem route_fails_iff_no_capable_agent_witness :
    (routeTask 0 generalTask emptyRouter).1 = RouteRes.errNoEligible :=
  ((route_fails_iff_no_capable_agent 0 generalTask emptyRouter "general" rfl).1).mpr
    (by decide)

/-- C8: `route_task` leaves the router state untouched when it fails with
`NoEligibleAgent`, and `report_task_completion` on an unregistered agent id
changes nothing. -/
theorem router_error_paths_pure :
    (∀ (now : ℚ) (task : TaskRec) (st : RouterState),
      (routeTask now task st).1 = RouteRes.errNoEligible → (routeTask now task st).2 = st) ∧
    (∀ (now : ℚ) (agent_id : String) (task : TaskRec) (success : Bool) (duration : ℚ)
      (st : RouterState), alookup agent_id st.agents = none →
      reportTaskCompletion now agent_id task success duration st = st) := by
  constructor
  · intro now task st h
    rw [(routeTask_errNoEligible_inv now task st h).2]
  · intro now agent_id task success duration st h
    simp [reportTaskCompletion, h]

theorem router_error_paths_pure_witness :
    (routeTask 1 reqTask reqState.router).2 = reqState.router ∧
    reportTaskCompletion 0 "ghost" generalTask true 1 emptyRouter = emptyRouter :=
  ⟨router_error_paths_pure.1 1 reqTask reqState.router (by decide),
   router_error_paths_pure.2 0 "ghost" generalTask true 1 emptyRouter (by decide)⟩

/-- C9: when `route_task` succeeds with agent `a`, in the post-state `a` is
`busy` with its load incremented by one, and every other agent's inventory
record is exactly as before. -/
theorem route_success_frame_effect (now : ℚ) (task : TaskRec) (st : RouterState)
    (a : String) (st' : RouterState)
    (hnd : (st.agents.map Prod.fst).Nodup)
    (h : routeTask now task st = (RouteRes.ok a, st')) :
    ∃ rec, alookup a st.agents = some rec ∧
      alookup a st'.agents =
        some { rec with status := "busy", current_load := rec.current_load + 1 } ∧
      ∀ b, b ≠ a → alookup b st'.agents = alookup b st.agents := by
  obtain ⟨hne, ha, hag⟩ := routeTask_ok_inv now task st a st' h
  have hmem : a ∈ findEligibleAgents task st := by
    rw [ha]
    exact routeBest_mem now task st hne
  obtain ⟨p, hp, hpa⟩ := List.mem_map.mp hmem
  have hpl : p ∈ st.agents := List.mem_of_mem_filter hp
  have hmem2 : (a, p.2) ∈ st.agents := by
    rw [← hpa]
    simpa using hpl
  have hlook : alookup a st.agents = some p.2 := alookup_eq_some_of_mem_nodup hmem2 hnd
  refine ⟨p.2, hlook, ?_, ?_⟩
  · rw [hag, alookup_aupdate_self, hlook]
    rfl
  · intro b hb
    rw [hag, alookup_aupdate_ne b a _ _ hb]

theorem route_success_frame_effect_witness :
    ∃ rec, alookup "a" discState.router.agents = some rec ∧
      alookup "a" (routeTask 1 generalTask discState.router).2.agents =
        some { rec with status := "busy", current_load := rec.current_load + 1 } ∧
      ∀ b, b ≠ "a" →
        alookup b (routeTask 1 generalTask discState.router).2.agents =
          alookup b discState.router.agents :=
  route_success_frame_effect 1 generalTask discState.router "a"
    (routeTask 1 generalTask discState.router).2 (by decide) (Prod.ext (by decide) rfl)

/-- Helper: a freshly computed checksum always verifies, whichever digest
function is used (the empty-digest corner lands in the vacuous branch). -/
lemma verifyChecksum_fresh (f : String → String) (e : CtxEntry)
    (h : e.checksum = some (calculateChecksum f e.value)) : verifyChecksum f e = true := by
  unfold verifyChecksum
  rw [h]
  by_cases hc : calculateChecksum f e.value = "" <;> simp [hc]

/-- Helper: the shared context after an update is the old one with the
returned entry stored under the key. -/
lemma updateContext_shared_context (now : ℚ) (f : String → String) (agent_id key : String)
    (v : Val) (md : List (String × String)) (st : SyncState) :
    (updateContext now f agent_id key v md st).1.shared_context =
      ainsert key (updateContext now f agent_id key v md st).2 st.shared_context := rfl

/-- Helper: last-write-wins makes the stored value the incoming one in every
branch of the conflict check. -/
lemma updateContext_value (now : ℚ) (f : String → String) (agent_id key : String)
    (v : Val) (md : List (String × String)) (st : SyncState) :
    (updateContext now f agent_id key v md st).2.value = v := by
  unfold updateContext
  cases h : alookup key st.shared_context with
  | none => simp [h]
  | some ex =>
    simp only [h]
    by_cases hc : hasConflict ex v now <;> simp [hc, resolveConflict]

/-- C5 counterexample: the queued task's routing attempt fails with
`NoEligibleAgent`, yet afterwards the queue is empty, the task sits in the
active map assigned to the requesting agent `a` (which lacks the capability),
and a `TASK_ASSIGNMENT` was sent — the opposite of requeue-with-no-assignment. -/
theorem assign_falls_back_to_requester :
    (routeTask 1 reqTask reqState.router).1 = RouteRes.errNoEligible ∧
    reqStateAfter.task_queue = [] ∧
    (alookup "t1" reqStateAfter.active_tasks).map ActiveInfo.agent = some "a" ∧
    (reqStateAfter.sent.filter (fun m => m.tag == "TASK_ASSIGNMENT")).length = 1 :=
  ⟨by decide, by decide, by decide, by decide⟩

/-- C5 (amended): when the routing attempt fails with `NoEligibleAgent` and no
requesting agent accompanies the attempt, the task is re-enqueued at the tail
— present exactly once more than in the remaining queue — with no assignment
sent and no other coordinator state changed; a registered requesting agent
would instead receive the task as a fallback. -/
theorem assign_requeues_on_no_eligible (now : ℚ) (st : CoordState) (task : TaskRec)
    (rest : List TaskRec)
    (hq : st.task_queue = task :: rest)
    (hfail : (routeTask now task st.router).1 = RouteRes.errNoEligible) :
    assignTaskToAgent now none st = { st with task_queue := rest ++ [task] } ∧
    (assignTaskToAgent now none st).task_queue.countP (fun u => u.id == task.id) =
      rest.countP (fun u => u.id == task.id) + 1 := by
  obtain ⟨ags, q, act, comp, rt, snt⟩ := st
  have hq' : q = task :: rest := hq
  subst hq'
  have hr := (routeTask_errNoEligible_inv now task rt hfail).2
  have h1 : assignTaskToAgent now none ⟨ags, task :: rest, act, comp, rt, snt⟩ =
      { agents := ags, task_queue := rest ++ [task], active_tasks := act,
        completed_tasks := comp, router := rt, sent := snt } := by
    simp [assignTaskToAgent, hr]
  refine ⟨h1, ?_⟩
  rw [h1]
  simp [List.countP_append, List.countP_cons]

theorem assign_requeues_on_no_eligible_witness :
    assignTaskToAgent 1 none reqState = { reqState with task_queue := [] ++ [reqTask] } ∧
    (assignTaskToAgent 1 none reqState).task_queue.countP (fun u => u.id == reqTask.id) =
      ([] : List TaskRec).countP (fun u => u.id == reqTask.id) + 1 :=
  assign_requeues_on_no_eligible 1 reqState reqTask [] (by decide) (by decide)

/-- C1: the unique-assignment invariant is reachable-state false: two
back-to-back delegation frames on an empty coordinator both mint the id
`task_0_del` (the generator counts only completed and active tasks), and after
one of the twins is assigned, the id `task_0_del` is simultaneously a queued
task's id and an active-map key. -/
theorem delegation_id_collision_breaks_unique_assignment :
    delState2.task_queue.map TaskRec.id = [some "task_0_del", some "task_0_del"] ∧
    delState4.task_queue.map TaskRec.id = [some "task_0_del"] ∧
    delState4.active_tasks.map Prod.fst = ["task_0_del"] :=
  ⟨by decide, by decide, by decide⟩

/-- C6: after `update_context(agent, k, v)` a `get_context(k)` on the
resulting state returns a stored entry whose value is exactly `v`; the stored
checksum is the digest of the canonical serialization of the stored value, so
verification succeeds and the read never returns absent — for any digest
function, SHA-256 included. -/
theorem update_get_roundtrip (now : ℚ) (sha256hex : String → String)
    (agent_id key : String) (v : Val) (md : List (String × String)) (st : SyncState) :
    ∃ e, getContext sha256hex key (updateContext now sha256hex agent_id key v md st).1 =
        some e ∧ e.value = v := by
  refine ⟨(updateContext now sha256hex agent_id key v md st).2, ?_,
    updateContext_value now sha256hex agent_id key v md st⟩
  have hck : (updateContext now sha256hex agent_id key v md st).2.checksum =
      some (calculateChecksum sha256hex
        (updateContext now sha256hex agent_id key v md st).2.value) := rfl
  have hver := verifyChecksum_fresh sha256hex _ hck
  unfold getContext
  rw [updateContext_shared_context, alookup_ainsert_self]
  simp [hver]

/-- C7: the version stored by `update_context` is the previously stored
version plus one (1 for a fresh key), hence strictly greater than whatever any
reader previously observed for that key. -/
theorem update_bumps_version (now : ℚ) (sha256hex : String → String)
    (agent_id key : String) (v : Val) (md : List (String × String)) (st : SyncState) :
    ∃ e, alookup key (updateContext now sha256hex agent_id key v md st).1.shared_context =
        some e ∧
      e.version = (match alookup key st.shared_context with
        | none => 0
        | some old => old.version) + 1 ∧
      (match alookup key st.shared_context with
        | none => 0
        | some old => old.version) < e.version := by
  refine ⟨(updateContext now sha256hex agent_id key v md st).2, ?_, ?_, ?_⟩
  · rw [updateContext_shared_context, alookup_ainsert_self]
  · show getNextVersion key st = _
    unfold getNextVersion
    cases alookup key st.shared_context <;> rfl
  · show _ < getNextVersion key st
    unfold getNextVersion
    cases alookup key st.shared_context <;> exact Nat.lt_succ_self _

/-- C10: `get_context` returns a stored entry with no checksum comparison at
all whenever the entry's checksum field is missing or falsy (the empty
string): verification vacuously succeeds for every digest function, so the
returns-iff-checksum-matches behaviour only holds for entries carrying a
non-empty checksum. -/
theorem get_context_skips_falsy_checksum (sha256hex : String → String) (key : String)
    (st : SyncState) (e : CtxEntry)
    (hl : alookup key st.shared_context = some e)
    (hc : e.checksum = none ∨ e.checksum = some "") :
    getContext sha256hex key st = some e := by
  have hver : verifyChecksum sha256hex e = true := by
    rcases hc with h | h <;> simp [verifyChecksum, h]
  unfold getContext
  rw [hl]
  simp [hver]

theorem get_context_skips_falsy_checksum_witness :
    getContext (fun s => "h" ++ s) "k" falsySync = some falsyEntry :=
  get_context_skips_falsy_checksum (fun s => "h" ++ s) "k" falsySync falsyEntry rfl
    (Or.inr rfl)
